import Mathlib

/-!
Verification development for the Seotta game server (backend/main.py).

The Python source is shallowly embedded: dataclasses become structures,
Python ints become Int (Nat for list indices), enums become inductives,
and the stateful websocket handlers become pure transition functions on
the room state.  Randomness (random.shuffle) is modelled by passing the
shuffled deck as an explicit parameter, constrained to be a permutation
of the fixed card list where reachability matters.
-/

namespace Seotta

/-- GamePhase enum from main.py. -/
inductive GamePhase
  | waiting
  | betting
  | reveal
  | finished
deriving DecidableEq, Repr

/-- PlayerStatus enum from main.py. -/
inductive PlayerStatus
  | waiting
  | playing
  | folded
  | allIn
deriving DecidableEq, Repr

/-- Card dataclass from main.py. -/
structure Card where
  month : Int
  type : String
  name : String
  value : Int
deriving DecidableEq, Repr

/-- Player dataclass from main.py.  The websocket handle is transport
state and carries no game information, so it is omitted from the model. -/
structure Player where
  id : String
  name : String
  chips : Int
  current_bet : Int
  cards : List Card
  hand_value : Int
  hand_name : String
  status : PlayerStatus
  is_ready : Bool
deriving DecidableEq, Repr

/-- GameState dataclass from main.py.  current_player is a list index and
is only ever 0 or (x+1) % 2 in the source, hence Nat. -/
structure GameState where
  id : String
  players : List Player
  current_player : Nat
  phase : GamePhase
  pot : Int
  min_bet : Int
  max_bet : Int
  round : Int
  winner : Option String
deriving DecidableEq, Repr

/-- The fixed 36-card deck SEOTTA_CARDS from main.py. -/
def SEOTTA_CARDS : List Card := [
  ⟨1, "bright", "송학", 20⟩, ⟨1, "ribbon", "송패", 5⟩, ⟨1, "junk", "송끌", 1⟩,
  ⟨2, "animal", "매조", 10⟩, ⟨2, "ribbon", "매패", 5⟩, ⟨2, "junk", "매끌", 1⟩,
  ⟨3, "bright", "벚광", 20⟩, ⟨3, "ribbon", "벚패", 5⟩, ⟨3, "junk", "벚끌", 1⟩,
  ⟨4, "animal", "등새", 10⟩, ⟨4, "ribbon", "등패", 5⟩, ⟨4, "junk", "등끌", 1⟩,
  ⟨5, "animal", "창다리", 10⟩, ⟨5, "ribbon", "창패", 5⟩, ⟨5, "junk", "창끌", 1⟩,
  ⟨6, "animal", "모란나비", 10⟩, ⟨6, "ribbon", "모란패", 5⟩, ⟨6, "junk", "모란끌", 1⟩,
  ⟨7, "animal", "싸리멧돼지", 10⟩, ⟨7, "ribbon", "싸리패", 5⟩, ⟨7, "junk", "싸리끌", 1⟩,
  ⟨8, "bright", "억새달", 20⟩, ⟨8, "animal", "억새기러기", 10⟩, ⟨8, "junk", "억새끌", 1⟩,
  ⟨9, "animal", "국화술잔", 10⟩, ⟨9, "ribbon", "국화패", 5⟩, ⟨9, "junk", "국화끌", 1⟩,
  ⟨10, "animal", "단풍사슴", 10⟩, ⟨10, "ribbon", "단풍패", 5⟩, ⟨10, "junk", "단풍끌", 1⟩,
  ⟨11, "bright", "오동광", 20⟩, ⟨11, "junk", "오동끌1", 1⟩, ⟨11, "junk", "오동끌2", 1⟩,
  ⟨12, "bright", "비광", 20⟩, ⟨12, "animal", "비제비", 10⟩, ⟨12, "junk", "비끌", 1⟩]

/-- The special-pair dictionary inside calculate_hand_value:
special = {(1, 2): 100, (1, 4): 99, (1, 9): 98, (1, 10): 97, (4, 10): 96, (4, 6): 95}.
A dict lookup is modelled as an if-chain returning Option. -/
def special_lookup (p : Int × Int) : Option Int :=
  if p = (1, 2) then some 100
  else if p = (1, 4) then some 99
  else if p = (1, 9) then some 98
  else if p = (1, 10) then some 97
  else if p = (4, 10) then some 96
  else if p = (4, 6) then some 95
  else none

/-- The fixed list of ten point labels in calculate_hand_value. -/
def point_labels : List String :=
  ["망통", "1끗", "2끗", "3끗", "4끗", "5끗", "6끗", "7끗", "8끗", "9끗"]

/-- calculate_hand_value from main.py.  Python % on a positive modulus
agrees with Int.emod, and the f-string label is string concatenation of
the decimal renderings of the two months in argument order. -/
def calculate_hand_value : List Card → Int × String
  | [card1, card2] =>
    if (special_lookup (card1.month, card2.month)).isSome ∨
        (special_lookup (card2.month, card1.month)).isSome then
      ((special_lookup (card1.month, card2.month)).getD
          ((special_lookup (card2.month, card1.month)).getD 0),
        toString card1.month ++ toString card2.month ++ "땡")
    else if card1.month = card2.month then
      (90 + card1.month, toString card1.month ++ "땡")
    else
      ((card1.month + card2.month) % 10,
        point_labels.getD ((card1.month + card2.month) % 10).toNat "")
  | _ => (0, "없음")

/-- One iteration of the dealing loop: player i receives deck[i*2 : i*2+2]
and its hand value and name are recomputed. -/
def deal_player (deck : List Card) (i : Nat) (p : Player) : Player :=
  let cs := (deck.drop (i * 2)).take 2
  { p with cards := cs,
           hand_value := (calculate_hand_value cs).1,
           hand_name := (calculate_hand_value cs).2 }

/-- The `for i, player in enumerate(game.players)` loop of deal_cards,
with the running index made explicit. -/
def deal_players (deck : List Card) : Nat → List Player → List Player
  | _, [] => []
  | i, p :: ps => deal_player deck i p :: deal_players deck (i + 1) ps

/-- deal_cards from main.py, with the shuffled deck passed explicitly
(shuffle_deck returns a random permutation of SEOTTA_CARDS). -/
def deal_cards (deck : List Card) (game : GameState) : GameState :=
  { game with players := deal_players deck 0 game.players }

/-- Per-player reset performed by start_new_round. -/
def reset_player (p : Player) : Player :=
  { p with status := PlayerStatus.playing, current_bet := 0, is_ready := false }

/-- start_new_round from main.py. -/
def start_new_round (deck : List Card) (game : GameState) : GameState :=
  deal_cards deck
    { game with phase := GamePhase.betting,
                current_player := 0,
                pot := 0,
                players := game.players.map reset_player }

/-- The room state registered by the create_room endpoint (the room id is
a random 6-character string, passed explicitly). -/
def create_room_state (room_id : String) : GameState :=
  { id := room_id, players := [], current_player := 0,
    phase := GamePhase.waiting, pot := 0, min_bet := 100, max_bet := 10000,
    round := 1, winner := none }

/-- Mutation of the first list element satisfying q.  Python finds the
player object with next(...) and mutates it in place; on the embedded
immutable list this is an update of the first match. -/
def updateFirst (q : Player → Bool) (f : Player → Player) : List Player → List Player
  | [] => []
  | p :: ps => if q p then f p :: ps else p :: updateFirst q f ps

/-- The guard of the bet branch: a player with this id exists, the phase
is Betting and the player at the current turn index has this id.
Python would raise IndexError if current_player were out of range; the
connection loop then dies with the room state unmodified, so for the
state evolution this is the same as the guard failing. -/
def bet_guard (pid : String) (g : GameState) : Bool :=
  match g.players.find? (fun p => p.id == pid) with
  | none => false
  | some _ =>
    g.phase == GamePhase.betting &&
      (match g.players[g.current_player]? with
       | some cur => cur.id == pid
       | none => false)

/-- The fold branch of the bet handler.  Python's next(...) over players
with a different id raises StopIteration when no such player exists; in
that case only the status mutation already performed survives. -/
def apply_fold (pid : String) (g : GameState) : GameState :=
  let ps1 := updateFirst (fun p => p.id == pid)
    (fun p => { p with status := PlayerStatus.folded }) g.players
  match ps1.find? (fun p => p.id != pid) with
  | none => { g with players := ps1 }
  | some w =>
    { g with
      players := updateFirst (fun p => p.id != pid)
        (fun p => { p with chips := p.chips + g.pot }) ps1,
      winner := some w.name,
      phase := GamePhase.finished }

/-- The debit/credit/turn-advance part of the call branch (everything
before the all-bets-placed check). -/
def call_bet_stage (pid : String) (g : GameState) : GameState :=
  { g with
    players := updateFirst (fun p => p.id == pid)
      (fun p => { p with chips := p.chips - g.min_bet,
                         current_bet := p.current_bet + g.min_bet }) g.players,
    pot := g.pot + g.min_bet,
    current_player := (g.current_player + 1) % 2 }

/-- The condition all(p.status != PLAYING or p.current_bet > 0 for p in
game.players) checked by the call branch. -/
def all_bets_placed (g : GameState) : Bool :=
  g.players.all (fun p => (p.status != PlayerStatus.playing) || decide (0 < p.current_bet))

/-- Python max(l, key=...) returns the first element with maximal key
(later elements replace the running maximum only when strictly greater). -/
def pymax : List Player → Option Player
  | [] => none
  | p :: ps =>
    some (ps.foldl (fun best q => if best.hand_value < q.hand_value then q else best) p)

/-- Lines 262-268: phase := REVEAL, and if exactly two players are not
folded, the one with the maximal hand value takes the pot, is recorded
as winner and the phase becomes FINISHED. -/
def resolve_reveal (g : GameState) : GameState :=
  let g2 := { g with phase := GamePhase.reveal }
  let active := g2.players.filter (fun p => p.status != PlayerStatus.folded)
  if active.length == 2 then
    match pymax active with
    | none => g2
    | some w =>
      { g2 with
        players := updateFirst (fun p => p.id == w.id)
          (fun p => { p with chips := p.chips + g2.pot }) g2.players,
        winner := some w.name,
        phase := GamePhase.finished }
  else g2

/-- The call branch of the bet handler. -/
def apply_call (pid : String) (g : GameState) : GameState :=
  match g.players.find? (fun p => p.id == pid) with
  | none => g
  | some player =>
    if g.min_bet ≤ player.chips then
      let g1 := call_bet_stage pid g
      if all_bets_placed g1 then resolve_reveal g1 else g1
    else g

/-- The half branch of the bet handler.  Python // is floor division,
hence Int.fdiv. -/
def apply_half (pid : String) (g : GameState) : GameState :=
  match g.players.find? (fun p => p.id == pid) with
  | none => g
  | some player =>
    let bet := Int.fdiv g.pot 2
    if bet ≤ player.chips then
      { g with
        players := updateFirst (fun p => p.id == pid)
          (fun p => { p with chips := p.chips - bet,
                             current_bet := p.current_bet + bet }) g.players,
        pot := g.pot + bet,
        current_player := (g.current_player + 1) % 2 }
    else g

/-- The all-in branch of the bet handler: the whole chip balance (even 0)
is committed, status becomes ALL_IN and the turn advances. -/
def apply_all_in (pid : String) (g : GameState) : GameState :=
  match g.players.find? (fun p => p.id == pid) with
  | none => g
  | some player =>
    let bet := player.chips
    { g with
      players := updateFirst (fun p => p.id == pid)
        (fun p => { p with current_bet := p.current_bet + bet,
                           chips := 0,
                           status := PlayerStatus.allIn }) g.players,
      pot := g.pot + bet,
      current_player := (g.current_player + 1) % 2 }

/-- The whole bet message handler (lines 237-286): guard, then dispatch
on the action string; any unknown action string is a no-op. -/
def bet_step (act pid : String) (g : GameState) : GameState :=
  if bet_guard pid g then
    if act = "fold" then apply_fold pid g
    else if act = "call" then apply_call pid g
    else if act = "half" then apply_half pid g
    else if act = "all-in" then apply_all_in pid g
    else g
  else g

/-- The ready message handler (lines 227-235): mark the sender ready and
start a new round once both seats are taken and ready. -/
def ready_step (pid : String) (deck : List Card) (g : GameState) : GameState :=
  match g.players.find? (fun p => p.id == pid) with
  | none => g
  | some _ =>
    let ps := updateFirst (fun p => p.id == pid)
      (fun p => { p with is_ready := true }) g.players
    let g1 := { g with players := ps }
    if ps.length == 2 && ps.all (fun p => p.is_ready) then
      start_new_round deck g1
    else g1

/-- The join_room handler restricted to the room state (lines 212-222):
reject when two players are seated, else append a fresh player. -/
def join_step (pid pname : String) (g : GameState) : GameState :=
  if 2 ≤ g.players.length then g
  else
    { g with players := g.players ++
        [{ id := pid, name := pname, chips := 5000, current_bet := 0,
           cards := [], hand_value := 0, hand_name := "",
           status := PlayerStatus.waiting, is_ready := false }] }

/-- The inbound events that can mutate a given room's state.  Decks stand
for the random shuffles consumed when a round starts. -/
inductive Action
  | join (pid pname : String)
  | ready (pid : String) (deck : List Card)
  | bet (pid act : String)
  | newGame (deck : List Card)
  | disconnect (pid : String)

/-- One step of the room state machine, dispatching like the websocket
message loop.  A disconnect removes the player (room deletion when the
list empties is registry bookkeeping). -/
def step (g : GameState) : Action → GameState
  | Action.join pid pname => join_step pid pname g
  | Action.ready pid deck => ready_step pid deck g
  | Action.bet pid act => bet_step act pid g
  | Action.newGame deck => start_new_round deck g
  | Action.disconnect pid => { g with players := g.players.filter (fun p => p.id != pid) }

/-- Decks fed to the state machine must be shuffles of the fixed deck. -/
def action_ok : Action → Prop
  | Action.ready _ deck => deck.Perm SEOTTA_CARDS
  | Action.newGame deck => deck.Perm SEOTTA_CARDS
  | _ => True

/-- Room states reachable from a freshly created room. -/
inductive ReachG : GameState → Prop
  | init (rid : String) : ReachG (create_room_state rid)
  | next {g : GameState} (a : Action) : ReachG g → action_ok a → ReachG (step g a)

/-- Whether an action triggers start_new_round (the two call sites of the
source: a ready completing the table, and new_game). -/
def resets_round (g : GameState) : Action → Bool
  | Action.ready pid _ =>
    (match g.players.find? (fun p => p.id == pid) with
     | none => false
     | some _ =>
       let ps := updateFirst (fun p => p.id == pid)
         (fun p => { p with is_ready := true }) g.players
       ps.length == 2 && ps.all (fun p => p.is_ready))
  | Action.newGame _ => true
  | _ => false

/-- Ghost accounting: the amount the action adds to the pot at one of the
three game.pot += bet sites (call, half, all-in), 0 otherwise. -/
def bet_contribution (g : GameState) : Action → Int
  | Action.bet pid act =>
    if bet_guard pid g then
      match g.players.find? (fun p => p.id == pid) with
      | none => 0
      | some player =>
        if act = "fold" then 0
        else if act = "call" then (if g.min_bet ≤ player.chips then g.min_bet else 0)
        else if act = "half" then
          (if Int.fdiv g.pot 2 ≤ player.chips then Int.fdiv g.pot 2 else 0)
        else if act = "all-in" then player.chips
        else 0
    else 0
  | _ => 0

/-- Ghost accounting: the amount the action credits to a winner at one of
the two winner.chips += game.pot sites (fold, call resolution). -/
def payout_of (g : GameState) : Action → Int
  | Action.bet pid act =>
    if bet_guard pid g then
      if act = "fold" then
        (match (updateFirst (fun p => p.id == pid)
            (fun p => { p with status := PlayerStatus.folded }) g.players).find?
            (fun p => p.id != pid) with
         | none => 0
         | some _ => g.pot)
      else if act = "call" then
        match g.players.find? (fun p => p.id == pid) with
        | none => 0
        | some player =>
          if g.min_bet ≤ player.chips then
            let g1 := call_bet_stage pid g
            if all_bets_placed g1 then
              if (g1.players.filter (fun p => p.status != PlayerStatus.folded)).length == 2
              then g1.pot else 0
            else 0
          else 0
      else 0
    else 0
  | _ => 0

/-- Instrumented step on (room state, chips contributed to the pot this
round, chips paid out to winners this round). -/
def stepX (s : GameState × Int × Int) (a : Action) : GameState × Int × Int :=
  (step s.1 a,
   if resets_round s.1 a then 0 else s.2.1 + bet_contribution s.1 a,
   s.2.2 + payout_of s.1 a)

/-- Reachable instrumented states. -/
inductive ReachX : GameState × Int × Int → Prop
  | init (rid : String) : ReachX (create_room_state rid, 0, 0)
  | next {s : GameState × Int × Int} (a : Action) :
      ReachX s → action_ok a → ReachX (stepX s a)

/-- Python exception raised by an attribute access on None. -/
inductive PyError
  | attributeErrorNone
deriving DecidableEq, Repr

/-- The ready handler including its room lookup (lines 227-235):
games.get(room_id) may be None, and the very next line accesses
game.players without a guard, which raises AttributeError in Python. -/
def handle_ready (lookup : Option GameState) (pid : String) (deck : List Card) :
    Except PyError GameState :=
  match lookup with
  | none => Except.error PyError.attributeErrorNone
  | some game => Except.ok (ready_step pid deck game)

/-- The bet handler including its room lookup (lines 237-242): with a
None lookup the generator over game.players raises AttributeError. -/
def handle_bet (lookup : Option GameState) (pid act : String) :
    Except PyError GameState :=
  match lookup with
  | none => Except.error PyError.attributeErrorNone
  | some game => Except.ok (bet_step act pid game)

/-! ## Hand evaluator claims -/

/-- C2 counterexample: for the card order (month 2, month 1) the special
table entry is (1, 2), so a label built in table-lookup order would be
"12땡"; the code returns "21땡", the months in argument order. -/
theorem seotta_C2_cex :
    calculate_hand_value
      [⟨2, "animal", "매조", 10⟩, ⟨1, "bright", "송학", 20⟩] = (100, "21땡") ∧
    ("21땡" : String) ≠ "12땡" :=
  ⟨by decide, by decide⟩

/-- C2 (amended): a 2-card hand whose unordered month pair is in the
special table scores that pair's fixed rank regardless of argument
order, and the label names the two months in the order the cards are
given (card1's month first). -/
theorem seotta_C2_amended (c1 c2 : Card) (m1 m2 v : Int)
    (hv : special_lookup (m1, m2) = some v)
    (hmm : (c1.month = m1 ∧ c2.month = m2) ∨ (c1.month = m2 ∧ c2.month = m1)) :
    calculate_hand_value [c1, c2] =
      (v, toString c1.month ++ toString c2.month ++ "땡") := by
  unfold special_lookup at hv
  split_ifs at hv with h1 h2 h3 h4 h5 h6
  · injection hv with hv; subst hv
    injection h1 with e1 e2; subst e1; subst e2
    rcases hmm with ⟨hA, hB⟩ | ⟨hA, hB⟩ <;>
      simp [calculate_hand_value, special_lookup, hA, hB]
  · injection hv with hv; subst hv
    injection h2 with e1 e2; subst e1; subst e2
    rcases hmm with ⟨hA, hB⟩ | ⟨hA, hB⟩ <;>
      simp [calculate_hand_value, special_lookup, hA, hB]
  · injection hv with hv; subst hv
    injection h3 with e1 e2; subst e1; subst e2
    rcases hmm with ⟨hA, hB⟩ | ⟨hA, hB⟩ <;>
      simp [calculate_hand_value, special_lookup, hA, hB]
  · injection hv with hv; subst hv
    injection h4 with e1 e2; subst e1; subst e2
    rcases hmm with ⟨hA, hB⟩ | ⟨hA, hB⟩ <;>
      simp [calculate_hand_value, special_lookup, hA, hB]
  · injection hv with hv; subst hv
    injection h5 with e1 e2; subst e1; subst e2
    rcases hmm with ⟨hA, hB⟩ | ⟨hA, hB⟩ <;>
      simp [calculate_hand_value, special_lookup, hA, hB]
  · injection hv with hv; subst hv
    injection h6 with e1 e2; subst e1; subst e2
    rcases hmm with ⟨hA, hB⟩ | ⟨hA, hB⟩ <;>
      simp [calculate_hand_value, special_lookup, hA, hB]

/-- C2 amended witness: the hand (month 4, month 1) matches the table
entry (1, 4) and scores 99 with the label in argument order. -/
theorem seotta_C2_amended_w :
    calculate_hand_value
      [⟨4, "animal", "등새", 10⟩, ⟨1, "bright", "송학", 20⟩] = (99, "41땡") := by
  have h := seotta_C2_amended ⟨4, "animal", "등새", 10⟩ ⟨1, "bright", "송학", 20⟩
    1 4 99 (by decide) (Or.inr ⟨rfl, rfl⟩)
  rw [h]; decide

/-- C3: a 2-card hand with distinct months and no special pair scores
(month1 + month2) mod 10 with the label at that index of the fixed
ten-label list (the index is in range); equal months with no special
pair score 90 + month with the double label. -/
theorem seotta_C3 (c1 c2 : Card)
    (hs1 : special_lookup (c1.month, c2.month) = none)
    (hs2 : special_lookup (c2.month, c1.month) = none) :
    (c1.month ≠ c2.month →
      calculate_hand_value [c1, c2] =
        ((c1.month + c2.month) % 10,
          point_labels.getD ((c1.month + c2.month) % 10).toNat "") ∧
      ((c1.month + c2.month) % 10).toNat < point_labels.length) ∧
    (c1.month = c2.month →
      calculate_hand_value [c1, c2] = (90 + c1.month, toString c1.month ++ "땡")) := by
  constructor
  · intro hne
    refine ⟨by simp [calculate_hand_value, hs1, hs2, hne], ?_⟩
    have h0 : (0 : Int) ≤ (c1.month + c2.month) % 10 :=
      Int.emod_nonneg _ (by norm_num)
    have h1 : (c1.month + c2.month) % 10 < 10 :=
      Int.emod_lt_of_pos _ (by norm_num)
    simp only [point_labels, List.length]
    omega
  · intro heq
    rw [heq] at hs1
    simp [calculate_hand_value, hs1, heq]

/-- C3 witness: months (3, 8) give 11 mod 10 = 1 with label "1끗", and
months (3, 3) give 93 with label "3땡". -/
theorem seotta_C3_w :
    calculate_hand_value
      [⟨3, "bright", "벚광", 20⟩, ⟨8, "bright", "억새달", 20⟩] = (1, "1끗") ∧
    calculate_hand_value
      [⟨3, "bright", "벚광", 20⟩, ⟨3, "junk", "벚끌", 1⟩] = (93, "3땡") := by
  constructor
  · have h := (seotta_C3 ⟨3, "bright", "벚광", 20⟩ ⟨8, "bright", "억새달", 20⟩
      (by decide) (by decide)).1 (by decide)
    rw [h.1]; decide
  · have h := (seotta_C3 ⟨3, "bright", "벚광", 20⟩ ⟨3, "junk", "벚끌", 1⟩
      (by decide) (by decide)).2 (by decide)
    rw [h]; decide

/-! ## Dealing and round reset claims -/

lemma deal_players_length (deck : List Card) (j : Nat) (ps : List Player) :
    (deal_players deck j ps).length = ps.length := by
  induction ps generalizing j with
  | nil => rfl
  | cons p ps ih => simp [deal_players, ih]

lemma deal_players_get? (deck : List Card) :
    ∀ (ps : List Player) (j i : Nat),
      (deal_players deck j ps)[i]? = ps[i]?.map (deal_player deck (j + i)) := by
  intro ps
  induction ps with
  | nil => intro j i; simp [deal_players]
  | cons p ps ih =>
    intro j i
    cases i with
    | zero => simp [deal_players]
    | succ n =>
      have e : j + 1 + n = j + (n + 1) := by omega
      simp only [deal_players, List.getElem?_cons_succ]
      rw [ih (j + 1) n, e]

/-- C4: start_new_round sets phase Betting, turn index 0, pot 0, and for
every seated player status Playing, bet 0 and ready flag false, and deals
player i the cards at deck offsets 2i and 2i+1, recomputing its hand. -/
theorem seotta_C4 (deck : List Card) (g : GameState) :
    (start_new_round deck g).phase = GamePhase.betting ∧
    (start_new_round deck g).current_player = 0 ∧
    (start_new_round deck g).pot = 0 ∧
    (start_new_round deck g).players.length = g.players.length ∧
    ∀ i (h : i < (start_new_round deck g).players.length),
      ((start_new_round deck g).players.get ⟨i, h⟩).status = PlayerStatus.playing ∧
      ((start_new_round deck g).players.get ⟨i, h⟩).current_bet = 0 ∧
      ((start_new_round deck g).players.get ⟨i, h⟩).is_ready = false ∧
      ((start_new_round deck g).players.get ⟨i, h⟩).cards = (deck.drop (i * 2)).take 2 ∧
      ((start_new_round deck g).players.get ⟨i, h⟩).hand_value =
        (calculate_hand_value ((deck.drop (i * 2)).take 2)).1 ∧
      ((start_new_round deck g).players.get ⟨i, h⟩).hand_name =
        (calculate_hand_value ((deck.drop (i * 2)).take 2)).2 := by
  have hpl : (start_new_round deck g).players
      = deal_players deck 0 (g.players.map reset_player) := rfl
  have hlen : (start_new_round deck g).players.length = g.players.length := by
    rw [hpl, deal_players_length, List.length_map]
  refine ⟨rfl, rfl, rfl, hlen, ?_⟩
  intro i h
  have h' : i < g.players.length := hlen ▸ h
  have hsome : (start_new_round deck g).players[i]?
      = some (deal_player deck i (reset_player g.players[i])) := by
    rw [hpl, deal_players_get? deck _ 0 i, List.getElem?_map,
      List.getElem?_eq_getElem h']
    simp
  have hval := List.getElem?_eq_getElem h
  rw [hsome] at hval
  have hq : (start_new_round deck g).players.get ⟨i, h⟩
      = deal_player deck i (reset_player g.players[i]) := by
    rw [List.get_eq_getElem]
    exact (Option.some_inj.mp hval).symm
  rw [hq]
  exact ⟨rfl, rfl, rfl, rfl, rfl, rfl⟩

/-- Demo players and rooms used by the concrete witnesses below. -/
def pAlice : Player :=
  { id := "a", name := "Alice", chips := 5000, current_bet := 0, cards := [],
    hand_value := 0, hand_name := "", status := PlayerStatus.waiting, is_ready := false }

def pBob : Player :=
  { id := "b", name := "Bob", chips := 5000, current_bet := 0, cards := [],
    hand_value := 0, hand_name := "", status := PlayerStatus.waiting, is_ready := false }

def c4_room : GameState :=
  { id := "R", players := [pAlice, pBob], current_player := 1,
    phase := GamePhase.finished, pot := 37, min_bet := 100, max_bet := 10000,
    round := 1, winner := some "Bob" }

/-- C4 witness: the round reset evaluated on a concrete finished room. -/
theorem seotta_C4_w :
    (start_new_round SEOTTA_CARDS c4_room).phase = GamePhase.betting ∧
    (start_new_round SEOTTA_CARDS c4_room).pot = 0 ∧
    ((start_new_round SEOTTA_CARDS c4_room).players.get ⟨0, by decide⟩).status
      = PlayerStatus.playing ∧
    ((start_new_round SEOTTA_CARDS c4_room).players.get ⟨0, by decide⟩).cards
      = (SEOTTA_CARDS.drop (0 * 2)).take 2 := by
  have h := seotta_C4 SEOTTA_CARDS c4_room
  exact ⟨h.1, h.2.2.1, (h.2.2.2.2 0 (by decide)).1, (h.2.2.2.2 0 (by decide)).2.2.2.1⟩

lemma special_lookup_nonneg (p : Int × Int) (v : Int)
    (h : special_lookup p = some v) : 0 ≤ v := by
  unfold special_lookup at h
  split_ifs at h <;> (injection h with h; omega)

lemma calculate_two_nonneg (c1 c2 : Card) (h1 : 0 ≤ c1.month) (_h2 : 0 ≤ c2.month) :
    0 ≤ (calculate_hand_value [c1, c2]).1 := by
  simp only [calculate_hand_value]
  split_ifs with hs heq
  · rcases ho : special_lookup (c1.month, c2.month) with _ | v
    · rcases ho2 : special_lookup (c2.month, c1.month) with _ | v2
      · simp [ho, ho2]
      · simpa [ho, ho2] using special_lookup_nonneg _ _ ho2
    · simpa [ho] using special_lookup_nonneg _ _ ho
  · simp only
    omega
  · exact Int.emod_nonneg _ (by norm_num)

lemma seotta_cards_nodup : SEOTTA_CARDS.Nodup := by decide

lemma seotta_cards_month (c : Card) (h : c ∈ SEOTTA_CARDS) : 1 ≤ c.month := by
  fin_cases h <;> decide

/-- C7: dealing a 2-player room from a shuffled deck gives player i the
deck slice [2i, 2i+2); the two hands are disjoint 2-card lists, and each
player's stored rank and label are calculate_hand_value of its hand,
with the rank non-negative. -/
theorem seotta_C7 (deck : List Card) (g : GameState) (p0 p1 : Player)
    (hperm : deck.Perm SEOTTA_CARDS) (hps : g.players = [p0, p1]) :
    (deal_cards deck g).players.map Player.cards
      = [deck.take 2, (deck.drop 2).take 2] ∧
    (∀ p ∈ (deal_cards deck g).players, p.cards.length = 2) ∧
    (∀ c ∈ deck.take 2, c ∉ (deck.drop 2).take 2) ∧
    (∀ p ∈ (deal_cards deck g).players,
      p.hand_value = (calculate_hand_value p.cards).1 ∧
      p.hand_name = (calculate_hand_value p.cards).2 ∧
      0 ≤ p.hand_value) := by
  have hlen : deck.length = 36 := by
    rw [hperm.length_eq]; decide
  obtain ⟨a, b, c, d, rest, hdeck⟩ :
      ∃ a b c d rest, deck = a :: b :: c :: d :: rest := by
    rcases deck with _ | ⟨a, _ | ⟨b, _ | ⟨c, _ | ⟨d, rest⟩⟩⟩⟩ <;>
      first
      | exact ⟨a, b, c, d, rest, rfl⟩
      | (exfalso; simp at hlen)
  subst hdeck
  have hnd : (a :: b :: c :: d :: rest).Nodup := hperm.symm.nodup seotta_cards_nodup
  have hmem : ∀ x ∈ a :: b :: c :: d :: rest, 1 ≤ x.month := by
    intro x hx
    exact seotta_cards_month x (hperm.mem_iff.mp hx)
  have hplayers : (deal_cards (a :: b :: c :: d :: rest) g).players
      = [deal_player (a :: b :: c :: d :: rest) 0 p0,
         deal_player (a :: b :: c :: d :: rest) 1 p1] := by
    simp [deal_cards, hps, deal_players]
  have hc0 : (deal_player (a :: b :: c :: d :: rest) 0 p0).cards = [a, b] := rfl
  have hc1 : (deal_player (a :: b :: c :: d :: rest) 1 p1).cards = [c, d] := rfl
  refine ⟨?_, ?_, ?_, ?_⟩
  · rw [hplayers]; simp [hc0, hc1]
  · intro p hp
    rw [hplayers] at hp
    simp only [List.mem_cons, List.not_mem_nil, or_false] at hp
    rcases hp with rfl | rfl
    · rw [hc0]; rfl
    · rw [hc1]; rfl
  · intro x hx1 hx2
    simp only [List.take, List.drop] at hx1 hx2
    simp only [List.mem_cons, List.not_mem_nil, or_false] at hx1 hx2
    simp only [List.nodup_cons, List.mem_cons] at hnd
    rcases hx1 with rfl | rfl <;> rcases hx2 with rfl | rfl <;> tauto
  · intro p hp
    have hm : ∀ x ∈ a :: b :: c :: d :: rest, (0 : Int) ≤ x.month := by
      intro x hx; have := hmem x hx; omega
    rw [hplayers] at hp
    simp only [List.mem_cons, List.not_mem_nil, or_false] at hp
    rcases hp with rfl | rfl
    · refine ⟨rfl, rfl, ?_⟩
      show 0 ≤ (calculate_hand_value [a, b]).1
      exact calculate_two_nonneg a b (hm a (by simp)) (hm b (by simp))
    · refine ⟨rfl, rfl, ?_⟩
      show 0 ≤ (calculate_hand_value [c, d]).1
      exact calculate_two_nonneg c d (hm c (by simp)) (hm d (by simp))

/-- C7 witness: dealing the identity shuffle to a concrete 2-player room. -/
theorem seotta_C7_w :
    (deal_cards SEOTTA_CARDS c4_room).players.map Player.cards
      = [SEOTTA_CARDS.take 2, (SEOTTA_CARDS.drop 2).take 2] := by
  exact (seotta_C7 SEOTTA_CARDS c4_room pAlice pBob (List.Perm.refl _) rfl).1

/-! ## Betting action claims -/

/-- C5: a fold by the player at the turn index of a 2-player Betting room
marks that player Folded, pays the whole (unchanged) pot to the other
player, records the other player's name as winner and finishes the hand. -/
theorem seotta_C5 (g : GameState) (p0 p1 : Player) (pid : String)
    (hps : g.players = [p0, p1])
    (hid : p0.id ≠ p1.id)
    (hph : g.phase = GamePhase.betting)
    (hact : (g.current_player = 0 ∧ pid = p0.id) ∨
            (g.current_player = 1 ∧ pid = p1.id)) :
    (g.current_player = 0 →
      step g (Action.bet pid "fold") =
        { g with players := [{ p0 with status := PlayerStatus.folded },
                             { p1 with chips := p1.chips + g.pot }],
                 winner := some p1.name, phase := GamePhase.finished }) ∧
    (g.current_player = 1 →
      step g (Action.bet pid "fold") =
        { g with players := [{ p0 with chips := p0.chips + g.pot },
                             { p1 with status := PlayerStatus.folded }],
                 winner := some p0.name, phase := GamePhase.finished }) := by
  have hne : (p0.id == p1.id) = false := beq_eq_false_iff_ne.mpr hid
  have hne' : (p1.id == p0.id) = false := beq_eq_false_iff_ne.mpr (Ne.symm hid)
  have hb1 : (p1.id != p0.id) = true := bne_iff_ne.mpr (Ne.symm hid)
  have hb0 : (p0.id != p1.id) = true := bne_iff_ne.mpr hid
  rcases hact with ⟨hc, rfl⟩ | ⟨hc, rfl⟩
  · refine ⟨fun _ => ?_, fun h1 => absurd (hc.symm.trans h1) (by decide)⟩
    simp [step, bet_step, bet_guard, apply_fold, updateFirst, hps, hph, hc,
      hne, hne', hb1]
  · refine ⟨fun h1 => absurd (hc.symm.trans h1) (by decide), fun _ => ?_⟩
    simp [step, bet_step, bet_guard, apply_fold, updateFirst, hps, hph, hc,
      hne, hne', hb0]

/-- A concrete 2-player room in the Betting phase for the witnesses. -/
def c5_room : GameState :=
  { id := "R", players := [pAlice, pBob], current_player := 0,
    phase := GamePhase.betting, pot := 37, min_bet := 100, max_bet := 10000,
    round := 1, winner := none }

/-- C5 witness: a fold on a concrete betting room. -/
theorem seotta_C5_w :
    step c5_room (Action.bet "a" "fold") =
      { c5_room with
          players := [{ pAlice with status := PlayerStatus.folded },
                      { pBob with chips := pBob.chips + c5_room.pot }],
          winner := some pBob.name, phase := GamePhase.finished } :=
  (seotta_C5 c5_room pAlice pBob "a" rfl (by decide) rfl (Or.inl ⟨rfl, rfl⟩)).1 rfl

/-- C6: a call by the player at the turn index whose chips are below the
minimum bet leaves the room state completely unchanged. -/
theorem seotta_C6 (g : GameState) (p0 p1 : Player) (pid : String)
    (hps : g.players = [p0, p1])
    (hid : p0.id ≠ p1.id)
    (hph : g.phase = GamePhase.betting)
    (hact : (g.current_player = 0 ∧ pid = p0.id ∧ p0.chips < g.min_bet) ∨
            (g.current_player = 1 ∧ pid = p1.id ∧ p1.chips < g.min_bet)) :
    step g (Action.bet pid "call") = g := by
  have hne : (p0.id == p1.id) = false := beq_eq_false_iff_ne.mpr hid
  rcases hact with ⟨hc, rfl, hchips⟩ | ⟨hc, rfl, hchips⟩
  · have hnle : ¬ (g.min_bet ≤ p0.chips) := not_le.mpr hchips
    simp [step, bet_step, bet_guard, apply_call, hps, hph, hc, hne, hnle]
  · have hnle : ¬ (g.min_bet ≤ p1.chips) := not_le.mpr hchips
    simp [step, bet_step, bet_guard, apply_call, hps, hph, hc, hne, hnle]

/-- Alice with only 50 chips, and the corresponding room. -/
def pPoor : Player := { pAlice with chips := 50 }

def c6_room : GameState := { c5_room with players := [pPoor, pBob] }

/-- C6 witness: a call by a player with 50 chips against min_bet 100. -/
theorem seotta_C6_w : step c6_room (Action.bet "a" "call") = c6_room :=
  seotta_C6 c6_room pPoor pBob "a" rfl (by decide) rfl
    (Or.inl ⟨rfl, rfl, by decide⟩)

lemma all_bets_placed_iff (g : GameState) :
    all_bets_placed g = true ↔
      ∀ p ∈ g.players, p.status = PlayerStatus.playing → 0 < p.current_bet := by
  unfold all_bets_placed
  rw [List.all_eq_true]
  refine forall_congr' fun p => forall_congr' fun hp => ?_
  rw [Bool.or_eq_true, bne_iff_ne, decide_eq_true_iff]
  constructor
  · rintro (hne | hlt) hst
    · exact absurd hst hne
    · exact hlt
  · intro h
    by_cases hst : p.status = PlayerStatus.playing
    · exact Or.inr (h hst)
    · exact Or.inl hst

lemma resolve_reveal_phase (g : GameState) :
    (resolve_reveal g).phase = GamePhase.reveal ∨
    (resolve_reveal g).phase = GamePhase.finished := by
  unfold resolve_reveal
  dsimp only
  split
  · split
    · exact Or.inl rfl
    · exact Or.inr rfl
  · exact Or.inl rfl

lemma updateFirst_all_bets (q : Player → Bool) (c : Int) (ps : List Player) :
    (updateFirst q (fun p => { p with chips := p.chips + c }) ps).all
        (fun p => (p.status != PlayerStatus.playing) || decide (0 < p.current_bet))
      = ps.all
        (fun p => (p.status != PlayerStatus.playing) || decide (0 < p.current_bet)) := by
  induction ps with
  | nil => rfl
  | cons p ps ih => by_cases hq : q p <;> simp [updateFirst, hq, ih]

lemma resolve_reveal_bets (g : GameState) :
    all_bets_placed (resolve_reveal g) = all_bets_placed g := by
  unfold resolve_reveal all_bets_placed
  dsimp only
  split
  · split
    · rfl
    · exact updateFirst_all_bets _ _ _
  · rfl

lemma apply_call_eq (g : GameState) (pid : String) (player : Player)
    (hfind : g.players.find? (fun p => p.id == pid) = some player)
    (hch : g.min_bet ≤ player.chips) :
    apply_call pid g =
      (if all_bets_placed (call_bet_stage pid g)
       then resolve_reveal (call_bet_stage pid g)
       else call_bet_stage pid g) := by
  unfold apply_call
  rw [hfind]
  dsimp only
  rw [if_pos hch]

/-- Abbreviation for the record update the call branch applies to the
acting player (debit chips, credit bet). -/
def call_debit (b : Int) (p : Player) : Player :=
  { p with chips := p.chips - b, current_bet := p.current_bet + b }

/-- Abbreviation for the record update resolution applies to the winner. -/
def credit_pot (c : Int) (p : Player) : Player :=
  { p with chips := p.chips + c }

/-- C1 (amended): after a call by the player at the turn index of a
2-player Betting room with sufficient chips, the phase leaves Betting
(Reveal and then resolution) exactly when every player whose status is
still Playing has a nonzero bet (an all-in player counts as settled even
with a zero bet); when that condition holds and neither player is
folded, the hand finishes and, if one player has the strictly greater
hand rank, that player is recorded as winner and receives the whole
post-call pot. -/
theorem seotta_C1_amended (g : GameState) (p0 p1 : Player) (pid : String)
    (hps : g.players = [p0, p1])
    (hid : p0.id ≠ p1.id)
    (hph : g.phase = GamePhase.betting)
    (hact : (g.current_player = 0 ∧ pid = p0.id ∧ g.min_bet ≤ p0.chips) ∨
            (g.current_player = 1 ∧ pid = p1.id ∧ g.min_bet ≤ p1.chips)) :
    ((step g (Action.bet pid "call")).phase ≠ GamePhase.betting ↔
      ∀ p ∈ (step g (Action.bet pid "call")).players,
        p.status = PlayerStatus.playing → 0 < p.current_bet) ∧
    ((∀ p ∈ (step g (Action.bet pid "call")).players,
        p.status = PlayerStatus.playing → 0 < p.current_bet) →
      p0.status ≠ PlayerStatus.folded → p1.status ≠ PlayerStatus.folded →
      (step g (Action.bet pid "call")).phase = GamePhase.finished ∧
      (p0.hand_value < p1.hand_value →
        (step g (Action.bet pid "call")).winner = some p1.name ∧
        (step g (Action.bet pid "call")).players.map Player.chips =
          [if g.current_player = 0 then p0.chips - g.min_bet else p0.chips,
           (if g.current_player = 1 then p1.chips - g.min_bet else p1.chips)
             + (g.pot + g.min_bet)]) ∧
      (p1.hand_value < p0.hand_value →
        (step g (Action.bet pid "call")).winner = some p0.name ∧
        (step g (Action.bet pid "call")).players.map Player.chips =
          [(if g.current_player = 0 then p0.chips - g.min_bet else p0.chips)
             + (g.pot + g.min_bet),
           if g.current_player = 1 then p1.chips - g.min_bet else p1.chips])) := by
  have hne : (p0.id == p1.id) = false := beq_eq_false_iff_ne.mpr hid
  rcases hact with ⟨hc, rfl, hch⟩ | ⟨hc, rfl, hch⟩
  · -- the first seat acts
    have hfind : g.players.find? (fun p => p.id == p0.id) = some p0 := by
      simp [hps]
    have hguard : bet_guard p0.id g = true := by
      simp [bet_guard, hps, hph, hc]
    have hstep : step g (Action.bet p0.id "call") = apply_call p0.id g := by
      simp [step, bet_step, hguard]
    rw [hstep, apply_call_eq g p0.id p0 hfind hch]
    have hcbs : call_bet_stage p0.id g =
        { g with players := [call_debit g.min_bet p0, p1],
                 pot := g.pot + g.min_bet, current_player := 1 } := by
      simp [call_bet_stage, call_debit, hps, updateFirst, hc]
    rw [hcbs]
    set G1 : GameState :=
      { g with players := [call_debit g.min_bet p0, p1],
               pot := g.pot + g.min_bet, current_player := 1 } with hG1
    by_cases hall : all_bets_placed G1 = true
    · simp only [hall, if_true]
      constructor
      · refine iff_of_true ?_ ?_
        · rcases resolve_reveal_phase G1 with h | h <;> simp [h]
        · exact (all_bets_placed_iff _).mp ((resolve_reveal_bets G1).trans hall)
      · intro _ hnf0 hnf1
        have hbne0 : (p0.status != PlayerStatus.folded) = true := bne_iff_ne.mpr hnf0
        have hbne1 : (p1.status != PlayerStatus.folded) = true := bne_iff_ne.mpr hnf1
        by_cases hlt : p0.hand_value < p1.hand_value
        · have hres : resolve_reveal G1 =
              { g with players := [call_debit g.min_bet p0,
                                   credit_pot (g.pot + g.min_bet) p1],
                       pot := g.pot + g.min_bet, current_player := 1,
                       phase := GamePhase.finished, winner := some p1.name } := by
            simp [resolve_reveal, hG1, pymax, updateFirst, call_debit, credit_pot,
              hbne0, hbne1, hlt, hne]
          refine ⟨by rw [hres], fun _ => ⟨by rw [hres], ?_⟩,
            fun hgt => absurd hgt (by omega)⟩
          rw [hres]
          simp [call_debit, credit_pot, hc]
        · have hres : resolve_reveal G1 =
              { g with players := [credit_pot (g.pot + g.min_bet)
                                     (call_debit g.min_bet p0), p1],
                       pot := g.pot + g.min_bet, current_player := 1,
                       phase := GamePhase.finished, winner := some p0.name } := by
            simp [resolve_reveal, hG1, pymax, updateFirst, call_debit, credit_pot,
              hbne0, hbne1, hlt, hne]
          refine ⟨by rw [hres], fun h => absurd h hlt, fun _ => ⟨by rw [hres], ?_⟩⟩
          rw [hres]
          simp [call_debit, credit_pot, hc]
    · have hallf : all_bets_placed G1 = false := by
        cases h' : all_bets_placed G1
        · rfl
        · exact absurd h' hall
      simp only [hallf, Bool.false_eq_true, if_false]
      constructor
      · refine iff_of_false ?_ ?_
        · simp [hG1, hph]
        · intro hcond
          exact hall ((all_bets_placed_iff G1).mpr hcond)
      · intro hcond _ _
        exact absurd ((all_bets_placed_iff G1).mpr hcond) hall
  · -- the second seat acts
    have hfind : g.players.find? (fun p => p.id == p1.id) = some p1 := by
      simp [hps, List.find?, hne]
    have hguard : bet_guard p1.id g = true := by
      simp [bet_guard, hps, hph, hc, hne, List.find?]
    have hstep : step g (Action.bet p1.id "call") = apply_call p1.id g := by
      simp [step, bet_step, hguard]
    rw [hstep, apply_call_eq g p1.id p1 hfind hch]
    have hcbs : call_bet_stage p1.id g =
        { g with players := [p0, call_debit g.min_bet p1],
                 pot := g.pot + g.min_bet, current_player := 0 } := by
      simp [call_bet_stage, call_debit, hps, updateFirst, hc, hne]
    rw [hcbs]
    set G1 : GameState :=
      { g with players := [p0, call_debit g.min_bet p1],
               pot := g.pot + g.min_bet, current_player := 0 } with hG1
    by_cases hall : all_bets_placed G1 = true
    · simp only [hall, if_true]
      constructor
      · refine iff_of_true ?_ ?_
        · rcases resolve_reveal_phase G1 with h | h <;> simp [h]
        · exact (all_bets_placed_iff _).mp ((resolve_reveal_bets G1).trans hall)
      · intro _ hnf0 hnf1
        have hbne0 : (p0.status != PlayerStatus.folded) = true := bne_iff_ne.mpr hnf0
        have hbne1 : (p1.status != PlayerStatus.folded) = true := bne_iff_ne.mpr hnf1
        by_cases hlt : p0.hand_value < p1.hand_value
        · have hres : resolve_reveal G1 =
              { g with players := [p0, credit_pot (g.pot + g.min_bet)
                                         (call_debit g.min_bet p1)],
                       pot := g.pot + g.min_bet, current_player := 0,
                       phase := GamePhase.finished, winner := some p1.name } := by
            simp [resolve_reveal, hG1, pymax, updateFirst, call_debit, credit_pot,
              hbne0, hbne1, hlt, hne]
          refine ⟨by rw [hres], fun _ => ⟨by rw [hres], ?_⟩,
            fun hgt => absurd hgt (by omega)⟩
          rw [hres]
          simp [call_debit, credit_pot, hc]
        · have hres : resolve_reveal G1 =
              { g with players := [credit_pot (g.pot + g.min_bet) p0,
                                   call_debit g.min_bet p1],
                       pot := g.pot + g.min_bet, current_player := 0,
                       phase := GamePhase.finished, winner := some p0.name } := by
            simp [resolve_reveal, hG1, pymax, updateFirst, call_debit, credit_pot,
              hbne0, hbne1, hlt, hne]
          refine ⟨by rw [hres], fun h => absurd h hlt, fun _ => ⟨by rw [hres], ?_⟩⟩
          rw [hres]
          simp [call_debit, credit_pot, hc]
    · have hallf : all_bets_placed G1 = false := by
        cases h' : all_bets_placed G1
        · rfl
        · exact absurd h' hall
      simp only [hallf, Bool.false_eq_true, if_false]
      constructor
      · refine iff_of_false ?_ ?_
        · simp [hG1, hph]
        · intro hcond
          exact hall ((all_bets_placed_iff G1).mpr hcond)
      · intro hcond _ _
        exact absurd ((all_bets_placed_iff G1).mpr hcond) hall

/-- Runs a list of events against a freshly created room. -/
def run_room (acts : List Action) : GameState :=
  acts.foldl step (create_room_state "ROOM")

/-- A real game history: both players join and ready up (identity
shuffle), the first goes all-in, the second calls, the hand resolves,
a new game starts and the first player (now broke) goes all-in with 0
chips.  The resulting state has a non-folded (all-in) player whose
current bet is 0. -/
def c1_acts : List Action :=
  [Action.join "a" "Alice", Action.join "b" "Bob",
   Action.ready "a" SEOTTA_CARDS, Action.ready "b" SEOTTA_CARDS,
   Action.bet "a" "all-in", Action.bet "b" "call",
   Action.newGame SEOTTA_CARDS, Action.bet "a" "all-in"]

def c1_state : GameState := run_room c1_acts

/-- C1 counterexample: in the reachable Betting state above, the call by
the player at the turn index (chips 10000 ≥ min_bet 100) triggers
resolution (phase Finished, winner recorded) even though the other,
non-folded player has current bet 0 — so resolution does not run "if and
only if every non-folded player has a nonzero current bet". -/
theorem seotta_C1_cex :
    ReachG c1_state ∧
    c1_state.phase = GamePhase.betting ∧
    c1_state.current_player = 1 ∧
    c1_state.players.map Player.id = ["a", "b"] ∧
    c1_state.min_bet = 100 ∧
    c1_state.players.map Player.chips = [0, 10000] ∧
    (step c1_state (Action.bet "b" "call")).phase = GamePhase.finished ∧
    (step c1_state (Action.bet "b" "call")).winner = some "Bob" ∧
    (step c1_state (Action.bet "b" "call")).players.map Player.status
      = [PlayerStatus.allIn, PlayerStatus.playing] ∧
    (step c1_state (Action.bet "b" "call")).players.map Player.current_bet
      = [0, 100] := by
  refine ⟨?_, by decide, by decide, by decide, by decide, by decide,
    by decide, by decide, by decide, by decide⟩
  have h0 := ReachG.init "ROOM"
  have h1 := ReachG.next (Action.join "a" "Alice") h0 trivial
  have h2 := ReachG.next (Action.join "b" "Bob") h1 trivial
  have h3 := ReachG.next (Action.ready "a" SEOTTA_CARDS) h2 (List.Perm.refl _)
  have h4 := ReachG.next (Action.ready "b" SEOTTA_CARDS) h3 (List.Perm.refl _)
  have h5 := ReachG.next (Action.bet "a" "all-in") h4 trivial
  have h6 := ReachG.next (Action.bet "b" "call") h5 trivial
  have h7 := ReachG.next (Action.newGame SEOTTA_CARDS) h6 (List.Perm.refl _)
  have h8 := ReachG.next (Action.bet "a" "all-in") h7 trivial
  exact h8

/-- Concrete mid-round Betting state used as the C1 witness: the second
seat has already called, the first is to act. -/
def pA1 : Player :=
  { id := "a", name := "Alice", chips := 5000, current_bet := 0, cards := [],
    hand_value := 91, hand_name := "1땡", status := PlayerStatus.playing,
    is_ready := false }

def pB1 : Player :=
  { id := "b", name := "Bob", chips := 4900, current_bet := 100, cards := [],
    hand_value := 100, hand_name := "12땡", status := PlayerStatus.playing,
    is_ready := false }

def c1_room : GameState :=
  { id := "R", players := [pA1, pB1], current_player := 0,
    phase := GamePhase.betting, pot := 100, min_bet := 100, max_bet := 10000,
    round := 1, winner := none }

/-- C1 amended witness: Alice calls, every Playing player now has a
nonzero bet, and Bob (strictly greater hand rank 100 > 91) takes the
200-chip pot. -/
theorem seotta_C1_amended_w :
    (step c1_room (Action.bet "a" "call")).phase = GamePhase.finished ∧
    (step c1_room (Action.bet "a" "call")).winner = some "Bob" ∧
    (step c1_room (Action.bet "a" "call")).players.map Player.chips
      = [4900, 5100] := by
  have h := seotta_C1_amended c1_room pA1 pB1 "a" rfl (by decide) rfl
    (Or.inl ⟨rfl, rfl, by decide⟩)
  obtain ⟨hph2, himp1, _⟩ := h.2 (by decide) (by decide) (by decide)
  have hw := himp1 (by decide)
  refine ⟨hph2, hw.1, ?_⟩
  rw [hw.2]
  decide

/-! ## Reachability invariants -/

lemma apply_fold_round (pid : String) (g : GameState) :
    (apply_fold pid g).round = g.round := by
  unfold apply_fold
  dsimp only
  split <;> rfl

lemma resolve_reveal_round (g : GameState) :
    (resolve_reveal g).round = g.round := by
  unfold resolve_reveal
  dsimp only
  split
  · split <;> rfl
  · rfl

lemma apply_call_round (pid : String) (g : GameState) :
    (apply_call pid g).round = g.round := by
  unfold apply_call
  split
  · rfl
  · split
    · dsimp only
      split
      · rw [resolve_reveal_round]; rfl
      · rfl
    · rfl

lemma apply_half_round (pid : String) (g : GameState) :
    (apply_half pid g).round = g.round := by
  unfold apply_half
  split
  · rfl
  · dsimp only
    split <;> rfl

lemma apply_all_in_round (pid : String) (g : GameState) :
    (apply_all_in pid g).round = g.round := by
  unfold apply_all_in
  split <;> rfl

lemma round_step (g : GameState) (a : Action) : (step g a).round = g.round := by
  cases a with
  | join pid pname =>
    show (join_step pid pname g).round = g.round
    unfold join_step
    split <;> rfl
  | ready pid deck =>
    show (ready_step pid deck g).round = g.round
    unfold ready_step
    split
    · rfl
    · dsimp only
      split <;> rfl
  | bet pid act =>
    show (bet_step act pid g).round = g.round
    unfold bet_step
    split_ifs <;>
      first
      | rfl
      | exact apply_fold_round pid g
      | exact apply_call_round pid g
      | exact apply_half_round pid g
      | exact apply_all_in_round pid g
  | newGame deck => rfl
  | disconnect pid => rfl

/-- C9: every reachable room state has round = 1: create_room sets it and
no handler ever writes it. -/
theorem seotta_C9 (g : GameState) (h : ReachG g) : g.round = 1 := by
  induction h with
  | init rid => rfl
  | next a hr hok ih => rw [round_step]; exact ih

/-- C9 witness: the round counter of a freshly created room. -/
theorem seotta_C9_w : (create_room_state "R").round = 1 :=
  seotta_C9 _ (ReachG.init "R")

/-! ## Pot accounting -/

lemma apply_fold_pot (pid : String) (g : GameState) :
    (apply_fold pid g).pot = g.pot := by
  unfold apply_fold
  dsimp only
  split <;> rfl

lemma resolve_reveal_pot (g : GameState) :
    (resolve_reveal g).pot = g.pot := by
  unfold resolve_reveal
  dsimp only
  split
  · split <;> rfl
  · rfl

lemma call_bet_stage_pot (pid : String) (g : GameState) :
    (call_bet_stage pid g).pot = g.pot + g.min_bet := rfl

lemma bet_step_pot (act pid : String) (g : GameState) :
    (bet_step act pid g).pot = g.pot + bet_contribution g (Action.bet pid act) := by
  unfold bet_step bet_contribution
  dsimp only
  by_cases hg : bet_guard pid g = true
  · rw [if_pos hg, if_pos hg]
    rcases hfind : g.players.find? (fun p => p.id == pid) with _ | player
    · rw [hfind]
      dsimp only
      by_cases h1 : act = "fold"
      · rw [if_pos h1, apply_fold_pot]
        simp
      · rw [if_neg h1]
        by_cases h2 : act = "call"
        · rw [if_pos h2]
          unfold apply_call
          rw [hfind]
          simp
        · rw [if_neg h2]
          by_cases h3 : act = "half"
          · rw [if_pos h3]
            unfold apply_half
            rw [hfind]
            simp
          · rw [if_neg h3]
            by_cases h4 : act = "all-in"
            · rw [if_pos h4]
              unfold apply_all_in
              rw [hfind]
              simp
            · rw [if_neg h4]
              simp
    · rw [hfind]
      dsimp only
      by_cases h1 : act = "fold"
      · rw [if_pos h1, if_pos h1, apply_fold_pot]
        simp
      · rw [if_neg h1, if_neg h1]
        by_cases h2 : act = "call"
        · rw [if_pos h2, if_pos h2]
          unfold apply_call
          rw [hfind]
          dsimp only
          by_cases hch : g.min_bet ≤ player.chips
          · rw [if_pos hch, if_pos hch]
            by_cases hab : all_bets_placed (call_bet_stage pid g) = true
            · rw [if_pos hab, resolve_reveal_pot, call_bet_stage_pot]
            · rw [if_neg hab, call_bet_stage_pot]
          · rw [if_neg hch, if_neg hch]
            simp
        · rw [if_neg h2, if_neg h2]
          by_cases h3 : act = "half"
          · rw [if_pos h3, if_pos h3]
            unfold apply_half
            rw [hfind]
            dsimp only
            by_cases hch : Int.fdiv g.pot 2 ≤ player.chips
            · rw [if_pos hch, if_pos hch]
            · rw [if_neg hch, if_neg hch]
              simp
          · rw [if_neg h3, if_neg h3]
            by_cases h4 : act = "all-in"
            · rw [if_pos h4, if_pos h4]
              unfold apply_all_in
              rw [hfind]
            · rw [if_neg h4, if_neg h4]
              simp
  · have hg2 : bet_guard pid g = false := by
      cases h2 : bet_guard pid g
      · rfl
      · exact absurd h2 hg
    simp [hg2]

lemma start_new_round_pot (deck : List Card) (g : GameState) :
    (start_new_round deck g).pot = 0 := rfl

lemma pot_step (g : GameState) (a : Action) :
    (step g a).pot =
      (if resets_round g a then 0 else g.pot + bet_contribution g a) := by
  cases a with
  | join pid pname =>
    simp only [step, resets_round, bet_contribution, Bool.false_eq_true, if_false]
    unfold join_step
    split <;> simp
  | ready pid deck =>
    simp only [step, resets_round]
    unfold ready_step
    rcases hfind : g.players.find? (fun p => p.id == pid) with _ | p
    · simp only [hfind]
      simp [bet_contribution]
    · simp only [hfind]
      split
      · exact start_new_round_pot deck _
      · simp [bet_contribution]
  | bet pid act =>
    simp only [step, resets_round, Bool.false_eq_true, if_false]
    exact bet_step_pot act pid g
  | newGame deck =>
    simp [step, resets_round, start_new_round_pot]
  | disconnect pid =>
    simp [step, resets_round, bet_contribution]

/-- C8 (amended): in every reachable instrumented state, the pot equals
the total amount contributed by bet actions this round; amounts paid out
to a winner are never deducted from the pot, which is reset only when a
new round starts. -/
theorem seotta_C8_amended (s : GameState × Int × Int) (h : ReachX s) :
    s.1.pot = s.2.1 := by
  induction h with
  | init rid => rfl
  | @next s2 a hr hok ih =>
    show (stepX s2 a).1.pot = (stepX s2 a).2.1
    simp only [stepX]
    rw [pot_step]
    by_cases hrr : resets_round s2.1 a = true
    · simp [hrr]
    · have hrr2 : resets_round s2.1 a = false := by
        cases h2 : resets_round s2.1 a
        · rfl
        · exact absurd h2 hrr
      simp [hrr2, ih]

/-- C8 amended witness: the invariant applied to a freshly created room. -/
theorem seotta_C8_amended_w : (create_room_state "R").pot = 0 :=
  seotta_C8_amended (create_room_state "R", 0, 0) (ReachX.init "R")

/-- A full round: both players join, ready up, and call; the hand
resolves and the winner is paid the whole 200-chip pot. -/
def c8_acts : List Action :=
  [Action.join "a" "Alice", Action.join "b" "Bob",
   Action.ready "a" SEOTTA_CARDS, Action.ready "b" SEOTTA_CARDS,
   Action.bet "a" "call", Action.bet "b" "call"]

def c8_final : GameState × Int × Int :=
  c8_acts.foldl stepX (create_room_state "ROOM", 0, 0)

/-- C8 counterexample: after the round resolves, 200 chips were
contributed and 200 chips were paid out to the winner, yet the pot still
holds 200 (payouts never decrement it) — so the pot does not equal
contributions minus payouts. -/
theorem seotta_C8_cex :
    ReachX c8_final ∧
    c8_final.1.phase = GamePhase.finished ∧
    c8_final.1.pot = 200 ∧
    c8_final.2.1 = 200 ∧
    c8_final.2.2 = 200 ∧
    c8_final.1.pot ≠ c8_final.2.1 - c8_final.2.2 := by
  refine ⟨?_, by decide, by decide, by decide, by decide, by decide⟩
  have h0 := ReachX.init "ROOM"
  have h1 := ReachX.next (Action.join "a" "Alice") h0 trivial
  have h2 := ReachX.next (Action.join "b" "Bob") h1 trivial
  have h3 := ReachX.next (Action.ready "a" SEOTTA_CARDS) h2 (List.Perm.refl _)
  have h4 := ReachX.next (Action.ready "b" SEOTTA_CARDS) h3 (List.Perm.refl _)
  have h5 := ReachX.next (Action.bet "a" "call") h4 trivial
  have h6 := ReachX.next (Action.bet "b" "call") h5 trivial
  exact h6

/-! ## Registry lookup failure -/

/-- C10: a ready or bet message whose connection-bound room id does not
resolve to a game reaches an unguarded attribute access on None and
raises, instead of being silently ignored. -/
theorem seotta_C10 (pid act : String) (deck : List Card) :
    handle_ready none pid deck = Except.error PyError.attributeErrorNone ∧
    handle_bet none pid act = Except.error PyError.attributeErrorNone ∧
    (∀ g' : GameState, handle_ready none pid deck ≠ Except.ok g') ∧
    (∀ g' : GameState, handle_bet none pid act ≠ Except.ok g') := by
  refine ⟨rfl, rfl, fun g' h => ?_, fun g' h => ?_⟩ <;>
    simp [handle_ready, handle_bet] at h

/-- C10 witness: the handlers evaluated at a concrete failed lookup. -/
theorem seotta_C10_w :
    handle_ready none "x" [] = Except.error PyError.attributeErrorNone ∧
    handle_bet none "x" "call" = Except.error PyError.attributeErrorNone :=
  ⟨(seotta_C10 "x" "call" []).1, (seotta_C10 "x" "call" []).2.1⟩

end Seotta
